import Mathlib

/-!
Shallow embedding of the tournament-draft persistence layer of the
DirektorWebapp repository, as implemented by the hook
`src/hooks/useTournamentDrafts.ts`.

The hook keeps React state (`drafts`, `isLoading`, `error`) and exposes five
operations — `loadDrafts`, `saveDraft`, `completeDraft`, `deleteDraft`,
`getDraft` — each a thin wrapper over the Supabase table
`tournament_drafts` plus a fire-and-forget audit log call.

Modelling decisions, each traceable to the source:
* A table row (`DraftRow`) carries the columns the code touches:
  `id`, `user_id`, `data`, `status`, `last_updated`, `created_at`.
  Identifiers, payloads and timestamps are `Nat` (the code treats them as
  opaque strings / ISO timestamps; only equality and ordering matter here).
* The remote Supabase table is a `List DraftRow` inside `SysState`, together
  with a reachability flag: an unreachable remote makes every Supabase query
  throw, which each operation catches (`try`/`catch` around the whole body).
* `supabase.auth.getUser()` is the `auth : Option Nat` field.
* `new Date().toISOString()` is an explicit time argument `t : Nat` to the
  operations that write timestamps.
* Row ids are assigned by the database on insert; modelled by a `nextId`
  counter.  The insert in `saveDraft` does not set `last_updated` /
  `created_at`; the column defaults fill in the current time, modelled as
  the same `t`.
* `logAction` (from `useAuditLog`, a hook not part of the sources) is called
  without `await`; modelled from the spec: a fire-and-forget append to an
  audit list that never throws into the calling operation.  The `auditOk`
  flag models whether the logger itself succeeds.
-/

/-- The `status` column: `'draft' | 'completed'` in the TypeScript interface. -/
inductive DStatus where
  | draft : DStatus
  | completed : DStatus
deriving DecidableEq, Repr

/-- One row of the `tournament_drafts` table, with the columns the hook
reads and writes (the `TournamentDraft` interface plus `user_id`). -/
structure DraftRow where
  id : Nat
  user_id : Nat
  data : Nat
  status : DStatus
  last_updated : Nat
  created_at : Nat
deriving DecidableEq, Repr

/-- An audit event as passed to `logAction`: an action name and the
`draft_id` of its `details` payload. -/
structure AuditEvent where
  action : String
  draft_id : Nat
deriving DecidableEq, Repr

/-- The whole observable state: the remote table and its reachability, the
authenticated user, the id counter of the database, the hook's React state
(`drafts`, `isLoading`, `error`) and the audit log with its health flag. -/
structure SysState where
  remote : List DraftRow
  reachable : Bool
  auth : Option Nat
  nextId : Nat
  drafts : List DraftRow
  isLoading : Bool
  error : Option String
  audit : List AuditEvent
  auditOk : Bool
deriving DecidableEq, Repr

/-- Modelled from the spec: `useAuditLog`'s `logAction` is not among the
sources; per the spec it is fire-and-forget ("Failure to log never fails the
underlying draft operation").  It appends the event when the logger works
and silently does nothing when it fails; it never throws into the caller
(the call sites do not `await` it). -/
def logAction (st : SysState) (a : String) (draftId : Nat) : SysState :=
  if st.auditOk then { st with audit := st.audit ++ [⟨a, draftId⟩] } else st

/-- `.order('last_updated', { ascending: false })`: sort rows by
`last_updated` descending. -/
def sortByUpdatedDesc (rows : List DraftRow) : List DraftRow :=
  List.insertionSort (fun a b => b.last_updated ≤ a.last_updated) rows

/-- `loadDrafts` (lines 19–43): requires an authenticated user, then selects
every row with `user_id = user.id` — with no filter on `status` — ordered by
`last_updated` descending, and stores the result in the `drafts` state.  Any
failure is caught: `error` is set to a message and `drafts` is left as it
was. -/
def loadDrafts (st : SysState) : SysState :=
  match st.auth with
  | none => { st with isLoading := false, error := some "User not authenticated" }
  | some uid =>
      if st.reachable then
        { st with
            drafts := sortByUpdatedDesc (st.remote.filter (fun r => r.user_id == uid)),
            isLoading := false,
            error := none }
      else
        { st with isLoading := false, error := some "Failed to load drafts" }

/-- `saveDraft` (lines 49–108).  Requires an authenticated user.  With a
`draftId` it updates `data` and `last_updated` on the rows matching both the
id and `user_id = user.id`, then `.select().single()`: the call reports the
id on exactly one matching row and throws (caught, `null`) otherwise.
Without a `draftId` it inserts a fresh row (`status: 'draft'`, timestamps
from the column defaults) and reports the new id.  Each success fires the
corresponding audit event; every failure is caught and reported as `none`. -/
def saveDraft (st : SysState) (t : Nat) (draftData : Nat) (draftId : Option Nat) :
    Option Nat × SysState :=
  match st.auth with
  | none => (none, st)
  | some uid =>
      if st.reachable then
        match draftId with
        | some did =>
            let matched := st.remote.filter (fun r => r.id == did && r.user_id == uid)
            let remote' := st.remote.map (fun r =>
              if r.id == did && r.user_id == uid then
                { r with data := draftData, last_updated := t }
              else r)
            if matched.length = 1 then
              (some did, logAction { st with remote := remote' } "tournament_draft_updated" did)
            else
              (none, { st with remote := remote' })
        | none =>
            let row : DraftRow :=
              { id := st.nextId, user_id := uid, data := draftData,
                status := DStatus.draft, last_updated := t, created_at := t }
            (some st.nextId,
             logAction { st with remote := st.remote ++ [row], nextId := st.nextId + 1 }
               "tournament_draft_created" st.nextId)
      else (none, st)

/-- `completeDraft` (lines 110–136): no authentication check; updates
`status` and `last_updated` on every row with the given id — with no
`user_id` filter.  An update matching zero rows is not an error, so the call
succeeds, fires the audit event and reloads the drafts list regardless.
Failure of the remote call is caught and reported as `false`. -/
def completeDraft (st : SysState) (t : Nat) (draftId : Nat) : Bool × SysState :=
  if st.reachable then
    let remote' := st.remote.map (fun r =>
      if r.id == draftId then { r with status := DStatus.completed, last_updated := t }
      else r)
    (true, loadDrafts (logAction { st with remote := remote' } "tournament_draft_completed" draftId))
  else
    (false, st)

/-- `deleteDraft` (lines 138–161): no authentication check; deletes every
row with the given id — with no `user_id` filter.  A delete matching zero
rows is not an error, so the call succeeds, fires the audit event and
reloads the drafts list regardless.  Failure of the remote call is caught
and reported as `false`. -/
def deleteDraft (st : SysState) (draftId : Nat) : Bool × SysState :=
  if st.reachable then
    (true,
     loadDrafts (logAction { st with remote := st.remote.filter (fun r => !(r.id == draftId)) }
       "tournament_draft_deleted" draftId))
  else
    (false, st)

/-- `getDraft` (lines 163–177): no authentication check; selects the rows
with the given id — with no `user_id` filter — and `.single()` returns the
row when there is exactly one, throwing (caught, `null`) otherwise.  It
touches no state and fires no audit event. -/
def getDraft (st : SysState) (draftId : Nat) : Option DraftRow :=
  if st.reachable then
    match st.remote.filter (fun r => r.id == draftId) with
    | [r] => some r
    | _ => none
  else none

/-- Database well-formedness: `nextId` is fresh and row ids are pairwise
distinct (the primary key of the table). -/
def WF (st : SysState) : Prop :=
  (∀ r ∈ st.remote, r.id < st.nextId) ∧ st.remote.Pairwise (fun a b => a.id ≠ b.id)

instance (st : SysState) : Decidable (WF st) := by
  unfold WF
  infer_instance

/-!
## Concrete states used by counterexamples and code-bug evaluations
-/

/-- A fresh state: empty remote table, reachable, user 0 authenticated. -/
def stEmpty : SysState :=
  { remote := [], reachable := true, auth := some 0, nextId := 0,
    drafts := [], isLoading := false, error := none, audit := [], auditOk := true }

/-- A plain draft row: id 0, owned by user 0, payload 7, saved at time 3. -/
def rowDraft0 : DraftRow := ⟨0, 0, 7, DStatus.draft, 3, 3⟩

/-- A completed row: id 0, owned by user 0, completed state, updated at 3. -/
def rowCompleted0 : DraftRow := ⟨0, 0, 7, DStatus.completed, 3, 2⟩

/-- A row owned by user 1 (id 7), used to probe cross-owner access while
user 0 is the authenticated user. -/
def rowOther : DraftRow := ⟨7, 1, 9, DStatus.draft, 3, 3⟩

/-- Reachable state of user 0 whose only remote row is the completed draft. -/
def stCompleted : SysState :=
  { remote := [rowCompleted0], reachable := true, auth := some 0, nextId := 1,
    drafts := [], isLoading := false, error := none, audit := [], auditOk := true }

/-- Reachable state where user 0 is authenticated but the only remote row
belongs to user 1. -/
def stCross : SysState :=
  { remote := [rowOther], reachable := true, auth := some 0, nextId := 8,
    drafts := [], isLoading := false, error := none, audit := [], auditOk := true }

/-- Reachable state of user 0 with one live (non-completed) draft. -/
def stLive : SysState :=
  { remote := [rowDraft0], reachable := true, auth := some 0, nextId := 1,
    drafts := [], isLoading := false, error := none, audit := [], auditOk := true }

/-- State with no authenticated user but a reachable remote holding a row. -/
def stNoAuth : SysState :=
  { remote := [⟨0, 1, 7, DStatus.draft, 3, 3⟩], reachable := true, auth := none, nextId := 1,
    drafts := [], isLoading := false, error := none, audit := [], auditOk := true }

/-- Unreachable-remote state of user 0 whose drafts list still shows the
draft loaded earlier. -/
def stOffline : SysState :=
  { remote := [rowDraft0], reachable := false, auth := some 0, nextId := 1,
    drafts := [rowDraft0], isLoading := false, error := none, audit := [], auditOk := true }

/-!
## C1 — save then load
-/

/-- C1, counterexample.  In `stEmpty`, `saveDraft` succeeds and returns id 0,
but once the remote store is unreachable the immediately following
`getDraft 0` does not return the just-saved payload 42 — it returns `null`:
the load is a remote round-trip, so the claimed behaviour fails exactly when
the Remote Draft Store is unreachable. -/
theorem c1_counterexample :
    (saveDraft stEmpty 5 42 none).1 = some 0 ∧
    ((getDraft { (saveDraft stEmpty 5 42 none).2 with reachable := false } 0).map
      (fun r => r.data)) ≠ some 42 := by decide

/-!
## C2 — listing must exclude completed drafts
-/

/-- C2, code-bug evaluation.  `loadDrafts` queries by `user_id` only, with
no filter on `status`, so the completed draft of `stCompleted` is returned
in the drafts list — the spec says a completed draft never appears there or
in the set driving the recovery prompt. -/
theorem c2_completed_listed :
    (loadDrafts stCompleted).drafts = [rowCompleted0] ∧
    rowCompleted0.status = DStatus.completed := by decide

/-!
## C3 — owner scoping of getDraft / completeDraft / deleteDraft
-/

/-- C3, code-bug evaluation.  In `stCross`, user 0 is authenticated while
row 7 belongs to user 1, yet `getDraft` returns the foreign row,
`completeDraft` reports success and marks it completed, and `deleteDraft`
reports success and removes it: none of the three queries carries a
`user_id` filter (unlike the update branch of `saveDraft`). -/
theorem c3_cross_owner_access :
    getDraft stCross 7 = some rowOther ∧
    (completeDraft stCross 5 7).1 = true ∧
    (∃ r ∈ (completeDraft stCross 5 7).2.remote,
      r.id = 7 ∧ r.user_id = 1 ∧ r.status = DStatus.completed) ∧
    (deleteDraft stCross 7).1 = true ∧
    (deleteDraft stCross 7).2.remote = [] := by decide

/-!
## C4 — delete visibility
-/

/-- C4, counterexample.  With the remote store unreachable (`stOffline`),
`deleteDraft 0` fails (`false`) and the draft is still present in the
listed drafts afterwards — deletion is not local-first and does not happen
"regardless of remote connectivity". -/
theorem c4_counterexample :
    (deleteDraft stOffline 0).1 = false ∧
    (∃ r ∈ (deleteDraft stOffline 0).2.drafts, r.id = 0) := by decide

/-!
## C5 — completeDraft must remove the draft from the listing
-/

/-- C5, code-bug evaluation.  `completeDraft` succeeds on the live draft of
`stLive` and reloads the list, but the reloaded list still contains the
draft (now with `status = completed`), because `loadDrafts` never filters on
`status`: completion does not remove the draft from the listing. -/
theorem c5_completed_still_listed :
    (completeDraft stLive 5 0).1 = true ∧
    (∃ r ∈ (completeDraft stLive 5 0).2.drafts,
      r.id = 0 ∧ r.status = DStatus.completed) := by decide

/-!
## C6 — operations without an authenticated user
-/

/-- C6, code-bug evaluation.  With no authenticated user (`stNoAuth`),
`completeDraft` still performs the remote write and reports success,
`getDraft` still performs the remote read and returns the row, and
`deleteDraft` still deletes remotely and reports success: only `loadDrafts`
and `saveDraft` check `supabase.auth.getUser()`. -/
theorem c6_unauthenticated_ops :
    (completeDraft stNoAuth 5 0).1 = true ∧
    (∃ r ∈ (completeDraft stNoAuth 5 0).2.remote, r.status = DStatus.completed) ∧
    getDraft stNoAuth 0 ≠ none ∧
    (deleteDraft stNoAuth 0).1 = true ∧
    (deleteDraft stNoAuth 0).2.remote = [] := by decide

/-!
## Helper lemmas
-/

theorem logAction_remote (st : SysState) (a : String) (d : Nat) :
    (logAction st a d).remote = st.remote := by
  unfold logAction; split <;> rfl

theorem logAction_reachable (st : SysState) (a : String) (d : Nat) :
    (logAction st a d).reachable = st.reachable := by
  unfold logAction; split <;> rfl

theorem logAction_auth (st : SysState) (a : String) (d : Nat) :
    (logAction st a d).auth = st.auth := by
  unfold logAction; split <;> rfl

theorem logAction_nextId (st : SysState) (a : String) (d : Nat) :
    (logAction st a d).nextId = st.nextId := by
  unfold logAction; split <;> rfl

theorem logAction_drafts (st : SysState) (a : String) (d : Nat) :
    (logAction st a d).drafts = st.drafts := by
  unfold logAction; split <;> rfl

/-- In a list of rows with pairwise-distinct ids, filtering by the id of a
member returns exactly that member. -/
theorem filter_id_single {l : List DraftRow} (hpw : l.Pairwise (fun a b => a.id ≠ b.id))
    {r0 : DraftRow} (hmem : r0 ∈ l) :
    l.filter (fun x => x.id == r0.id) = [r0] := by
  induction l with
  | nil => cases hmem
  | cons a l ih =>
      rw [List.pairwise_cons] at hpw
      rcases List.mem_cons.mp hmem with h | h
      · subst h
        have h2 : l.filter (fun x => x.id == r0.id) = [] := by
          refine List.filter_eq_nil_iff.mpr fun b hb => ?_
          have := hpw.1 b hb
          simp only [beq_iff_eq]
          omega
        simp [List.filter_cons, h2]
      · have hne : a.id ≠ r0.id := hpw.1 r0 h
        have hB : (a.id == r0.id) = false := by
          simpa [beq_eq_false_iff_ne] using hne
        simp [List.filter_cons, hB, ih hpw.2 h]

/-- Filtering by id commutes with mapping an id-preserving row update. -/
theorem filter_map_pres_id (f : DraftRow → DraftRow) (hf : ∀ r, (f r).id = r.id)
    (n : Nat) (l : List DraftRow) :
    (l.map f).filter (fun x => x.id == n) = (l.filter (fun x => x.id == n)).map f := by
  induction l with
  | nil => rfl
  | cons a l ih =>
      simp only [List.map_cons, List.filter_cons, hf a]
      cases h : (a.id == n) <;> simp [h, ih]

/-- `getDraft` returns the unique row matching the id. -/
theorem getDraft_eq (st : SysState) (d : Nat) (hr : st.reachable = true) (r0 : DraftRow)
    (hfil : st.remote.filter (fun x => x.id == d) = [r0]) :
    getDraft st d = some r0 := by
  simp [getDraft, hr, hfil]

/-- C1, amended.  Whenever `saveDraft` reports success with id `i` and the
database is well-formed, an immediately following `getDraft i` — a remote
round-trip against the still-reachable store — returns the just-saved
payload.  (The unreachable-store half of the original claim fails; see the
counterexample.) -/
theorem c1_save_then_get (st : SysState) (t payload : Nat) (oid : Option Nat) (i : Nat)
    (hwf : WF st) (h : (saveDraft st t payload oid).1 = some i) :
    (getDraft (saveDraft st t payload oid).2 i).map (fun r => r.data) = some payload := by
  obtain ⟨hlt, hpw⟩ := hwf
  cases hauth : st.auth with
  | none => simp [saveDraft, hauth] at h
  | some uid =>
    cases hreach : st.reachable with
    | false => simp [saveDraft, hauth, hreach] at h
    | true =>
      cases oid with
      | none =>
          have hi : st.nextId = i := by simpa [saveDraft, hauth, hreach] using h
          have hnil : st.remote.filter (fun r => r.id == st.nextId) = [] := by
            refine List.filter_eq_nil_iff.mpr fun r hr => ?_
            have := hlt r hr
            simp only [beq_iff_eq]
            omega
          subst hi
          simp only [saveDraft, hauth, hreach, if_true]
          rw [getDraft_eq _ _ (by simp [logAction_reachable, hreach])
            ({ id := st.nextId, user_id := uid, data := payload,
               status := DStatus.draft, last_updated := t, created_at := t })
            (by rw [logAction_remote, List.filter_append, hnil]; simp)]
          rfl
      | some did =>
          by_cases hm :
              (st.remote.filter (fun r => r.id == did && r.user_id == uid)).length = 1
          · have hid : did = i := by simpa [saveDraft, hauth, hreach, hm] using h
            subst hid
            obtain ⟨r0, hr0⟩ := List.length_eq_one.mp hm
            have hr0mem :
                r0 ∈ st.remote.filter (fun r => r.id == did && r.user_id == uid) := by
              rw [hr0]; exact List.mem_singleton.mpr rfl
            have hr0l : r0 ∈ st.remote := (List.mem_filter.mp hr0mem).1
            have hq : (r0.id == did && r0.user_id == uid) = true := (List.mem_filter.mp hr0mem).2
            have hr0id : r0.id = did := by
              have := ((Bool.and_eq_true _ _).mp hq).1
              simpa [beq_iff_eq] using this
            have hf : ∀ r : DraftRow,
                ((fun r : DraftRow =>
                  if r.id == did && r.user_id == uid then
                    { r with data := payload, last_updated := t }
                  else r) r).id = r.id := by
              intro r
              by_cases hc : (r.id == did && r.user_id == uid) = true
              · simp [hc]
              · simp [hc]
            have hone : st.remote.filter (fun x => x.id == did) = [r0] := by
              have := filter_id_single hpw hr0l
              rwa [hr0id] at this
            simp only [saveDraft, hauth, hreach, hm, if_true]
            rw [getDraft_eq _ _ (by simp [logAction_reachable, hreach])
              ({ r0 with data := payload, last_updated := t })
              (by
                rw [logAction_remote]
                rw [filter_map_pres_id _ hf did st.remote, hone]
                simp only [List.map_cons, List.map_nil]
                rw [if_pos hq])]
            rfl
          · simp [saveDraft, hauth, hreach, hm] at h

/-- C1 witness: in the fresh state `stEmpty`, saving payload 42 yields id 0
and an immediate `getDraft 0` returns payload 42. -/
theorem c1_save_then_get_witness :
    (getDraft (saveDraft stEmpty 5 42 none).2 0).map (fun r => r.data) = some 42 :=
  c1_save_then_get stEmpty 5 42 none 0 (by decide) (by decide)

theorem loadDrafts_remote (st : SysState) : (loadDrafts st).remote = st.remote := by
  cases hauth : st.auth <;> cases hreach : st.reachable <;>
    simp [loadDrafts, hauth, hreach]

theorem loadDrafts_audit (st : SysState) : (loadDrafts st).audit = st.audit := by
  cases hauth : st.auth <;> cases hreach : st.reachable <;>
    simp [loadDrafts, hauth, hreach]

/-- The drafts list produced by a successful `loadDrafts`: the owner's rows
sorted by `last_updated` descending. -/
theorem loadDrafts_drafts (st : SysState) (uid : Nat)
    (hauth : st.auth = some uid) (hreach : st.reachable = true) :
    (loadDrafts st).drafts =
      sortByUpdatedDesc (st.remote.filter (fun r => r.user_id == uid)) := by
  simp [loadDrafts, hauth, hreach]

/-- C4, amended.  For an authenticated user with the remote store reachable,
`deleteDraft` reports success and the draft is gone both from the remote
table and from the reloaded drafts list; with the store unreachable the call
fails and changes nothing (no local-first removal, no pending-deletion
retry). -/
theorem c4_delete_absent (st : SysState) (did uid : Nat)
    (hauth : st.auth = some uid) :
    (st.reachable = true →
      (deleteDraft st did).1 = true ∧
      (∀ r ∈ (deleteDraft st did).2.remote, r.id ≠ did) ∧
      (∀ r ∈ (deleteDraft st did).2.drafts, r.id ≠ did)) ∧
    (st.reachable = false → deleteDraft st did = (false, st)) := by
  constructor
  · intro hreach
    have hd : (deleteDraft st did).2 =
        loadDrafts (logAction
          { st with remote := st.remote.filter (fun r => !(r.id == did)) }
          "tournament_draft_deleted" did) := by
      simp [deleteDraft, hreach]
    refine ⟨by simp [deleteDraft, hreach], ?_, ?_⟩
    · intro r hr
      rw [hd, loadDrafts_remote, logAction_remote] at hr
      have := (List.mem_filter.mp hr).2
      simpa using this
    · intro r hr
      rw [hd, loadDrafts_drafts _ uid (by rw [logAction_auth]; exact hauth)
        (by rw [logAction_reachable]; exact hreach)] at hr
      rw [sortByUpdatedDesc, List.mem_insertionSort] at hr
      have hr1 : r ∈ (logAction
          { st with remote := st.remote.filter (fun r => !(r.id == did)) }
          "tournament_draft_deleted" did).remote := (List.mem_filter.mp hr).1
      rw [logAction_remote] at hr1
      have := (List.mem_filter.mp hr1).2
      simpa using this
  · intro hreach
    simp [deleteDraft, hreach]

/-- C4 witness: in `stLive` (user 0 authenticated, store reachable) deleting
draft 0 succeeds and leaves no row or listed draft with id 0. -/
theorem c4_delete_absent_witness :
    stLive.auth = some 0 ∧
    ((stLive.reachable = true →
      (deleteDraft stLive 0).1 = true ∧
      (∀ r ∈ (deleteDraft stLive 0).2.remote, r.id ≠ 0) ∧
      (∀ r ∈ (deleteDraft stLive 0).2.drafts, r.id ≠ 0)) ∧
    (stLive.reachable = false → deleteDraft stLive 0 = (false, stLive))) :=
  ⟨by decide, c4_delete_absent stLive 0 0 (by decide)⟩

theorem saveDraft_noauth (st : SysState) (t payload : Nat) (oid : Option Nat)
    (hauth : st.auth = none) : saveDraft st t payload oid = (none, st) := by
  simp [saveDraft, hauth]

theorem saveDraft_unreachable (st : SysState) (t payload : Nat) (oid : Option Nat)
    (hreach : st.reachable = false) : saveDraft st t payload oid = (none, st) := by
  cases hauth : st.auth <;> simp [saveDraft, hauth, hreach]

theorem saveDraft_update_remote (st : SysState) (t payload did uid : Nat)
    (hauth : st.auth = some uid) (hreach : st.reachable = true) :
    (saveDraft st t payload (some did)).2.remote =
      st.remote.map (fun r =>
        if r.id == did && r.user_id == uid then
          { r with data := payload, last_updated := t }
        else r) := by
  by_cases hm : (st.remote.filter (fun r => r.id == did && r.user_id == uid)).length = 1 <;>
    simp [saveDraft, hauth, hreach, hm, logAction_remote]

theorem saveDraft_create (st : SysState) (t payload uid : Nat)
    (hauth : st.auth = some uid) (hreach : st.reachable = true) :
    saveDraft st t payload none =
      (some st.nextId,
       logAction { st with
         remote := st.remote ++ [⟨st.nextId, uid, payload, DStatus.draft, t, t⟩],
         nextId := st.nextId + 1 } "tournament_draft_created" st.nextId) := by
  simp [saveDraft, hauth, hreach]

theorem completeDraft_remote (st : SysState) (t did : Nat) (hreach : st.reachable = true) :
    (completeDraft st t did).2.remote =
      st.remote.map (fun r =>
        if r.id == did then { r with status := DStatus.completed, last_updated := t }
        else r) := by
  simp [completeDraft, hreach, loadDrafts_remote, logAction_remote]

/-!
## C7 — last_updated is monotone and stamped by every successful save
-/

/-- C7: when the clock `t` is at or past every stored timestamp, each
operation that writes (`saveDraft` update, `saveDraft` create,
`completeDraft`) leaves every pre-existing row with a successor of the same
id whose `last_updated` did not decrease, and every successful save stamps
the saved row with the current time `t`. -/
theorem c7_updated_monotone (st : SysState) (t payload d : Nat)
    (hmono : ∀ r ∈ st.remote, r.last_updated ≤ t) :
    (∀ r ∈ st.remote, ∃ r' ∈ (saveDraft st t payload (some d)).2.remote,
        r'.id = r.id ∧ r.last_updated ≤ r'.last_updated) ∧
    (∀ r ∈ st.remote, ∃ r' ∈ (completeDraft st t d).2.remote,
        r'.id = r.id ∧ r.last_updated ≤ r'.last_updated) ∧
    (∀ r ∈ st.remote, r ∈ (saveDraft st t payload none).2.remote) ∧
    (∀ i, (saveDraft st t payload none).1 = some i →
        ∃ r' ∈ (saveDraft st t payload none).2.remote,
          r'.id = i ∧ r'.last_updated = t) ∧
    ((saveDraft st t payload (some d)).1 = some d →
        ∃ r' ∈ (saveDraft st t payload (some d)).2.remote,
          r'.id = d ∧ r'.last_updated = t) ∧
    ((completeDraft st t d).1 = true → ∀ r ∈ st.remote, r.id = d →
        ∃ r' ∈ (completeDraft st t d).2.remote,
          r'.id = d ∧ r'.last_updated = t) := by
  refine ⟨?_, ?_, ?_, ?_, ?_, ?_⟩
  · intro r hr
    cases hauth : st.auth with
    | none => exact ⟨r, by rw [saveDraft_noauth st t payload _ hauth]; exact hr, rfl, le_refl _⟩
    | some uid =>
        cases hreach : st.reachable with
        | false =>
            exact ⟨r, by rw [saveDraft_unreachable st t payload _ hreach]; exact hr,
              rfl, le_refl _⟩
        | true =>
            rw [saveDraft_update_remote st t payload d uid hauth hreach]
            refine ⟨_, List.mem_map_of_mem _ hr, ?_, ?_⟩
            · by_cases hc : (r.id == d && r.user_id == uid) = true <;> simp [hc]
            · by_cases hc : (r.id == d && r.user_id == uid) = true <;> simp [hc]
              exact hmono r hr
  · intro r hr
    cases hreach : st.reachable with
    | false =>
        refine ⟨r, ?_, rfl, le_refl _⟩
        have : completeDraft st t d = (false, st) := by simp [completeDraft, hreach]
        rw [this]; exact hr
    | true =>
        rw [completeDraft_remote st t d hreach]
        refine ⟨_, List.mem_map_of_mem _ hr, ?_, ?_⟩
        · by_cases hc : (r.id == d) = true <;> simp [hc]
        · by_cases hc : (r.id == d) = true <;> simp [hc]
          exact hmono r hr
  · intro r hr
    cases hauth : st.auth with
    | none => rw [saveDraft_noauth st t payload _ hauth]; exact hr
    | some uid =>
        cases hreach : st.reachable with
        | false => rw [saveDraft_unreachable st t payload _ hreach]; exact hr
        | true =>
            rw [saveDraft_create st t payload uid hauth hreach]
            rw [logAction_remote]
            exact List.mem_append_left _ hr
  · intro i hi
    cases hauth : st.auth with
    | none => rw [saveDraft_noauth st t payload _ hauth] at hi; cases hi
    | some uid =>
        cases hreach : st.reachable with
        | false => rw [saveDraft_unreachable st t payload _ hreach] at hi; cases hi
        | true =>
            rw [saveDraft_create st t payload uid hauth hreach] at hi ⊢
            have hii : st.nextId = i := by simpa using hi
            refine ⟨⟨st.nextId, uid, payload, DStatus.draft, t, t⟩, ?_, hii, rfl⟩
            rw [logAction_remote]
            exact List.mem_append_right _ (List.mem_singleton.mpr rfl)
  · intro h
    cases hauth : st.auth with
    | none => rw [saveDraft_noauth st t payload _ hauth] at h; cases h
    | some uid =>
        cases hreach : st.reachable with
        | false => rw [saveDraft_unreachable st t payload _ hreach] at h; cases h
        | true =>
            by_cases hm :
                (st.remote.filter (fun r => r.id == d && r.user_id == uid)).length = 1
            · obtain ⟨r0, hr0⟩ := List.length_eq_one.mp hm
              have hr0mem :
                  r0 ∈ st.remote.filter (fun r => r.id == d && r.user_id == uid) := by
                rw [hr0]; exact List.mem_singleton.mpr rfl
              have hr0l : r0 ∈ st.remote := (List.mem_filter.mp hr0mem).1
              have hq : (r0.id == d && r0.user_id == uid) = true :=
                (List.mem_filter.mp hr0mem).2
              have hr0id : r0.id = d := by
                have := ((Bool.and_eq_true _ _).mp hq).1
                simpa [beq_iff_eq] using this
              rw [saveDraft_update_remote st t payload d uid hauth hreach]
              refine ⟨_, List.mem_map_of_mem _ hr0l, ?_⟩
              rw [if_pos hq]
              exact ⟨hr0id, rfl⟩
            · simp [saveDraft, hauth, hreach, hm] at h
  · intro _ r hr hid
    cases hreach : st.reachable with
    | false => simp [completeDraft, hreach] at *
    | true =>
        rw [completeDraft_remote st t d hreach]
        refine ⟨_, List.mem_map_of_mem _ hr, ?_⟩
        have hc : (r.id == d) = true := by simpa [beq_iff_eq] using hid
        rw [if_pos hc]
        exact ⟨hid, rfl⟩

/-- C7 witness: in `stLive` (one draft saved at time 3) with the clock at 5,
all monotonicity and stamping conclusions hold concretely. -/
theorem c7_updated_monotone_witness :
    (∀ r ∈ stLive.remote, r.last_updated ≤ 5) ∧
    ((∀ r ∈ stLive.remote, ∃ r' ∈ (saveDraft stLive 5 42 (some 0)).2.remote,
        r'.id = r.id ∧ r.last_updated ≤ r'.last_updated) ∧
     (∀ r ∈ stLive.remote, ∃ r' ∈ (completeDraft stLive 5 0).2.remote,
        r'.id = r.id ∧ r.last_updated ≤ r'.last_updated) ∧
     (∀ r ∈ stLive.remote, r ∈ (saveDraft stLive 5 42 none).2.remote) ∧
     (∀ i, (saveDraft stLive 5 42 none).1 = some i →
        ∃ r' ∈ (saveDraft stLive 5 42 none).2.remote,
          r'.id = i ∧ r'.last_updated = 5) ∧
     ((saveDraft stLive 5 42 (some 0)).1 = some 0 →
        ∃ r' ∈ (saveDraft stLive 5 42 (some 0)).2.remote,
          r'.id = 0 ∧ r'.last_updated = 5) ∧
     ((completeDraft stLive 5 0).1 = true → ∀ r ∈ stLive.remote, r.id = 0 →
        ∃ r' ∈ (completeDraft stLive 5 0).2.remote,
          r'.id = 0 ∧ r'.last_updated = 5)) :=
  ⟨by decide, c7_updated_monotone stLive 5 42 0 (by decide)⟩

/-!
## C8 — audit-logger failure never fails the operation
-/

/-- C8: the outcome of every operation — its return value and the resulting
remote table — is the same whether the audit logger works or fails; a
logging failure only means the audit event is dropped. -/
theorem c8_audit_failure_harmless (st : SysState) (t payload d : Nat) (oid : Option Nat) :
    ((saveDraft { st with auditOk := false } t payload oid).1 =
      (saveDraft { st with auditOk := true } t payload oid).1) ∧
    ((saveDraft { st with auditOk := false } t payload oid).2.remote =
      (saveDraft { st with auditOk := true } t payload oid).2.remote) ∧
    ((completeDraft { st with auditOk := false } t d).1 =
      (completeDraft { st with auditOk := true } t d).1) ∧
    ((completeDraft { st with auditOk := false } t d).2.remote =
      (completeDraft { st with auditOk := true } t d).2.remote) ∧
    ((deleteDraft { st with auditOk := false } d).1 =
      (deleteDraft { st with auditOk := true } d).1) ∧
    ((deleteDraft { st with auditOk := false } d).2.remote =
      (deleteDraft { st with auditOk := true } d).2.remote) ∧
    (getDraft { st with auditOk := false } d = getDraft { st with auditOk := true } d) := by
  cases hauth : st.auth <;> cases hreach : st.reachable <;> cases oid <;>
    simp [saveDraft, completeDraft, deleteDraft, getDraft, loadDrafts_remote,
      logAction_remote, hauth, hreach]
  split <;> simp [logAction_remote]

/-!
## C9 — no exception escapes; documented fallback values
-/

/-- C9: when the remote store fails, every operation returns its documented
fallback instead of raising: `saveDraft` returns `none` (and leaves the
state untouched), `getDraft` returns `none`, `completeDraft` and
`deleteDraft` return `false`, and `loadDrafts` records an error message
while leaving the previously loaded drafts list unchanged. -/
theorem c9_failure_defaults (st : SysState) (t payload d g : Nat) (oid : Option Nat)
    (hreach : st.reachable = false) :
    (saveDraft st t payload oid).1 = none ∧
    (saveDraft st t payload oid).2 = st ∧
    getDraft st g = none ∧
    completeDraft st t d = (false, st) ∧
    deleteDraft st d = (false, st) ∧
    (loadDrafts st).drafts = st.drafts ∧
    (loadDrafts st).error.isSome = true := by
  cases hauth : st.auth <;>
    simp [saveDraft, getDraft, completeDraft, deleteDraft, loadDrafts, hauth, hreach]

/-- C9 witness: in the unreachable state `stOffline` every operation
returns its fallback and the drafts list survives unchanged. -/
theorem c9_failure_defaults_witness :
    stOffline.reachable = false ∧
    ((saveDraft stOffline 5 42 (some 0)).1 = none ∧
     (saveDraft stOffline 5 42 (some 0)).2 = stOffline ∧
     getDraft stOffline 0 = none ∧
     completeDraft stOffline 5 0 = (false, stOffline) ∧
     deleteDraft stOffline 0 = (false, stOffline) ∧
     (loadDrafts stOffline).drafts = stOffline.drafts ∧
     (loadDrafts stOffline).error.isSome = true) :=
  ⟨by decide, c9_failure_defaults stOffline 5 42 0 0 (some 0) (by decide)⟩

/-!
## C10 — deleting a nonexistent draft is indistinguishable from success
-/

/-- C10: when no row carries the requested id, `deleteDraft` still returns
`true`, still emits the `tournament_draft_deleted` audit event, and the
remote table is unchanged: a nonexistent target is not distinguished from a
successful deletion at the public interface. -/
theorem c10_delete_nonexistent (st : SysState) (d : Nat)
    (hreach : st.reachable = true) (haud : st.auditOk = true)
    (hnone : ∀ r ∈ st.remote, r.id ≠ d) :
    (deleteDraft st d).1 = true ∧
    (deleteDraft st d).2.remote = st.remote ∧
    (deleteDraft st d).2.audit = st.audit ++ [⟨"tournament_draft_deleted", d⟩] := by
  have hfil : st.remote.filter (fun r => !(r.id == d)) = st.remote := by
    refine List.filter_eq_self.mpr fun r hr => ?_
    have := hnone r hr
    simpa using this
  have hd : (deleteDraft st d).2 =
      loadDrafts (logAction
        { st with remote := st.remote.filter (fun r => !(r.id == d)) }
        "tournament_draft_deleted" d) := by
    simp [deleteDraft, hreach]
  refine ⟨by simp [deleteDraft, hreach], ?_, ?_⟩
  · rw [hd, loadDrafts_remote, logAction_remote]
    exact hfil
  · rw [hd, loadDrafts_audit]
    simp [logAction, haud]

/-- C10 witness: deleting the absent id 99 in `stLive` reports success,
changes no row, and logs the deletion event. -/
theorem c10_delete_nonexistent_witness :
    stLive.reachable = true ∧ stLive.auditOk = true ∧
    (∀ r ∈ stLive.remote, r.id ≠ 99) ∧
    ((deleteDraft stLive 99).1 = true ∧
     (deleteDraft stLive 99).2.remote = stLive.remote ∧
     (deleteDraft stLive 99).2.audit =
       stLive.audit ++ [⟨"tournament_draft_deleted", 99⟩]) :=
  ⟨by decide, by decide, by decide,
   c10_delete_nonexistent stLive 99 (by decide) (by decide) (by decide)⟩
